import Mathlib

/-!
Verification of the media-organizer program (src/media-organizer.py).

The development shallowly embeds the date-resolution and placement-planning
core of the script.  External capabilities (the EXIF reader, the two
filesystem timestamp readers, the directory walker and the existence
predicate) are passed in as explicit data, exactly as the specification's
component contracts describe; fallible reads are `Option` values (`none`
models the read raising an exception), and `get_file_date` returns an
`Except` whose error case models the exception that propagates out of it.
-/

namespace MediaOrganizer

/-- A calendar date-time, the embedding of Python's `datetime` value as far
as this program consumes it (year/month/day/hour/minute/second). -/
structure DateTime where
  year : Nat
  month : Nat
  day : Nat
  hour : Nat
  minute : Nat
  second : Nat
deriving DecidableEq, Repr

/-- Leap-year rule used by `datetime`'s day-of-month validation. -/
def isLeap (y : Nat) : Bool :=
  (y % 4 == 0 && y % 100 != 0) || y % 400 == 0

/-- Number of days in a month, as validated by the `datetime` constructor. -/
def daysInMonth (y m : Nat) : Nat :=
  if m = 2 then (if isLeap y then 29 else 28)
  else if m = 4 ∨ m = 6 ∨ m = 9 ∨ m = 11 then 30
  else 31

/-- The field ranges accepted by the Python `datetime` constructor
(`MINYEAR = 1`, `MAXYEAR = 9999`). -/
def ValidDate (d : DateTime) : Prop :=
  1 ≤ d.year ∧ d.year ≤ 9999 ∧ 1 ≤ d.month ∧ d.month ≤ 12 ∧
  1 ≤ d.day ∧ d.day ≤ daysInMonth d.year d.month ∧
  d.hour ≤ 23 ∧ d.minute ≤ 59 ∧ d.second ≤ 59

instance (d : DateTime) : Decidable (ValidDate d) := by
  unfold ValidDate; infer_instance

/-- The ASCII digit character for `n < 10`. -/
def digitChar (n : Nat) : Char := Char.ofNat (48 + n)

/-- Numeric value of an ASCII digit character. -/
def dval (c : Char) : Nat := c.toNat - 48

/-- Four-digit zero-padded decimal digits (`strftime` field `%Y`). -/
def pad4 (n : Nat) : List Char :=
  [digitChar (n / 1000 % 10), digitChar (n / 100 % 10),
   digitChar (n / 10 % 10), digitChar (n % 10)]

/-- Two-digit zero-padded decimal digits (`strftime` fields `%m`, `%d`, ...). -/
def pad2 (n : Nat) : List Char :=
  [digitChar (n / 10 % 10), digitChar (n % 10)]

/-- `pad4` as a string. -/
def pad4S (n : Nat) : String := ⟨pad4 n⟩

/-- `pad2` as a string. -/
def pad2S (n : Nat) : String := ⟨pad2 n⟩

/-- Embedding of `datetime.strptime(value, '%Y:%m:%d %H:%M:%S')` on the
canonical zero-padded form of that format: exactly 19 characters, digits in
the date/time positions, `:` and ` ` separators, and field values accepted
by the `datetime` constructor.  Any other input makes `strptime` (or the
`datetime` constructor) raise, which the caller swallows; that is the
`none` result here. -/
def strptimeExif (s : String) : Option DateTime :=
  match s.data with
  | [y1, y2, y3, y4, c1, o1, o2, c2, d1, d2, c3, h1, h2, c4, i1, i2, c5, s1, s2] =>
    if c1 = ':' ∧ c2 = ':' ∧ c3 = ' ' ∧ c4 = ':' ∧ c5 = ':' ∧
        y1.isDigit ∧ y2.isDigit ∧ y3.isDigit ∧ y4.isDigit ∧
        o1.isDigit ∧ o2.isDigit ∧ d1.isDigit ∧ d2.isDigit ∧
        h1.isDigit ∧ h2.isDigit ∧ i1.isDigit ∧ i2.isDigit ∧
        s1.isDigit ∧ s2.isDigit then
      let y := dval y1 * 1000 + dval y2 * 100 + dval y3 * 10 + dval y4
      let mo := dval o1 * 10 + dval o2
      let d := dval d1 * 10 + dval d2
      let h := dval h1 * 10 + dval h2
      let mi := dval i1 * 10 + dval i2
      let sec := dval s1 * 10 + dval s2
      if 1 ≤ y ∧ 1 ≤ mo ∧ mo ≤ 12 ∧ 1 ≤ d ∧ d ≤ daysInMonth y mo ∧
          h ≤ 23 ∧ mi ≤ 59 ∧ sec ≤ 59 then
        some ⟨y, mo, d, h, mi, sec⟩
      else none
    else none
  | _ => none

/-- The canonical `YYYY:MM:DD HH:MM:SS` rendering of a date-time (the
on-disk text format of the `DateTimeOriginal` EXIF tag). -/
def formatExif (d : DateTime) : String :=
  ⟨pad4 d.year ++ ':' :: (pad2 d.month ++ ':' :: (pad2 d.day ++ ' ' ::
    (pad2 d.hour ++ ':' :: (pad2 d.minute ++ ':' :: pad2 d.second))))⟩

/-- Embedding of Python `str.lower()` (the script only ever feeds it ASCII
file names, where `Char.toLower` agrees with Python). -/
def toLowerE (s : String) : String := ⟨s.data.map Char.toLower⟩

/-- Embedding of Python `str.endswith(t)`: `t` is a suffix of `s`. -/
def endsWithE (s t : String) : Bool := t.data.isSuffixOf s.data

/-- Embedding of `os.path.splitext` on a bare file name (no separator):
split at the last dot, except that a run of dots at the very start of the
name never starts an extension. -/
def splitextE (name : String) : String × String :=
  let l := name.data
  if (l.dropWhile (fun c => c = '.')).contains '.' then
    let extLen := (l.reverse.takeWhile (fun c => c ≠ '.')).length
    (⟨l.take (l.length - extLen - 1)⟩, ⟨l.drop (l.length - extLen - 1)⟩)
  else (name, "")

/-- Embedding of `os.path.join(a, b)` for the POSIX, relative-second-argument
case the script exercises. -/
def pathJoin (a b : String) : String := a ++ "/" ++ b

/-- `image_extensions` from `organize_files`. -/
def image_extensions : List String :=
  [".jpg", ".jpeg", ".png", ".gif", ".bmp", ".tif", ".tiff", ".heic"]

/-- `video_extensions` from `organize_files`. -/
def video_extensions : List String :=
  [".mp4", ".mov", ".avi", ".wmv", ".mkv", ".flv", ".webm"]

/-- `accepted_extensions = image_extensions + video_extensions`. -/
def accepted_extensions : List String := image_extensions ++ video_extensions

/-- `month_names` from `organize_files`. -/
def month_names : List String :=
  ["01", "02", "03", "04", "05", "06", "07", "08", "09", "10", "11", "12"]

/-- The image check in `get_file_date`:
`filepath.lower().endswith(('.jpg', ..., '.heic'))`. -/
def isImagePath (p : String) : Bool :=
  image_extensions.any (fun e => endsWithE (toLowerE p) e)

/-- The category test used by the `organize_files` loop filter for videos:
`os.path.splitext(filename)[1].lower()` is in `video_extensions`. -/
def isVideoFile (filename : String) : Bool :=
  video_extensions.contains (toLowerE (splitextE filename).2)

/-- The loop filter in `organize_files`:
`os.path.splitext(filename)[1].lower() in accepted_extensions`. -/
def isAccepted (filename : String) : Bool :=
  accepted_extensions.contains (toLowerE (splitextE filename).2)

/-- Embedding of `get_exif_date`.  Its single capability argument is the
outcome of `Image.open(...)._getexif()` decoded through `TAGS`: `none` when
opening or reading raises (the swallowed exception), otherwise the decoded
tag/value list.  The function returns the parse of the first
`DateTimeOriginal` value, and `none` on any failure. -/
def findDateTimeOriginal : List (String × String) → Option String
  | [] => none
  | (tag, v) :: rest =>
    if tag = "DateTimeOriginal" then some v else findDateTimeOriginal rest

/-- `get_exif_date` proper: swallow every failure, parse the tag strictly. -/
def get_exif_date (exifData : Option (List (String × String))) : Option DateTime :=
  match exifData with
  | none => none
  | some tags =>
    match findDateTimeOriginal tags with
    | none => none
    | some v => strptimeExif v

/-- Embedding of `get_file_date`.  `ctimeD`/`mtimeD` are the outcomes of
`os.path.getctime`/`os.path.getmtime` (`none` = the call raises).  The EXIF
tier runs only when the lowered path ends in an image extension; a `getctime`
failure falls back to `getmtime`; a `getmtime` failure then propagates out
of the function, which is the `Except.error` case. -/
def get_file_date (filepath : String) (exifData : Option (List (String × String)))
    (ctimeD mtimeD : Option DateTime) : Except Unit DateTime :=
  match (if isImagePath filepath then get_exif_date exifData else none) with
  | some d => Except.ok d
  | none =>
    match ctimeD with
    | some t => Except.ok t
    | none =>
      match mtimeD with
      | some t => Except.ok t
      | none => Except.error ()

/-- Embedding of Python `str.split(sep)` for a single-character separator,
on character lists: splitting the empty string yields one empty part, and
every separator occurrence starts a new part. -/
def splitSep (sep : Char) : List Char → List (List Char)
  | [] => [[]]
  | c :: rest =>
    if c = sep then [] :: splitSep sep rest
    else
      match splitSep sep rest with
      | [] => [[c]]
      | h :: t => (c :: h) :: t

/-- `relative_folder_path.split(os.sep)` for the POSIX separator. -/
def splitOnSlash (s : String) : List String :=
  (splitSep '/' s.data).map (fun l => ⟨l⟩)

/-- Embedding of one `str.replace(a, b)` call for single characters. -/
def replaceChar (s : String) (a b : Char) : String :=
  ⟨s.data.map (fun c => if c = a then b else c)⟩

/-- Per-segment cleaning in `organize_files`:
`part.replace(' ', '_').replace('.', '_').replace('-', '_')` followed by
keeping only alphanumeric characters and underscores. -/
def cleanPart (part : String) : String :=
  ⟨(((replaceChar (replaceChar (replaceChar part ' ' '_') '.' '_') '-' '_')).data.filter
    (fun c => c.isAlphanum || c = '_'))⟩

/-- The folder-derived file-name piece from `organize_files`: split the
relative folder path on the separator (`[]` when it is `"."`), clean each
segment, drop segments that clean to the empty string, and when any remain
join them with underscores behind one leading underscore. -/
def folderNamePart (relativeFolder : String) : String :=
  let parts := if relativeFolder = "." then [] else splitOnSlash relativeFolder
  let cleaned := (parts.map cleanPart).filter (fun p => p ≠ "")
  if cleaned = [] then "" else "_" ++ String.intercalate "_" cleaned

/-- `year_folder_path = os.path.join(destination_path, year)` with
`year = determined_date.strftime("%Y")`. -/
def yearDirOf (destinationPath : String) (d : DateTime) : String :=
  pathJoin destinationPath (pad4S d.year)

/-- `month_folder_path = os.path.join(year_folder_path, f"{year}_{month_name}")`
with `month_name = month_names[determined_date.month - 1]`. -/
def monthDirOf (destinationPath : String) (d : DateTime) : String :=
  pathJoin (yearDirOf destinationPath d)
    (pad4S d.year ++ "_" ++ month_names.getD (d.month - 1) "")

/-- `new_filename_base = f"{formatted_date_for_file}{folder_name_prefix}_{base_name}"`
with `formatted_date_for_file = determined_date.strftime("%Y_%m_%d")`. -/
def newBaseOf (relativeFolder filename : String) (d : DateTime) : String :=
  pad4S d.year ++ "_" ++ pad2S d.month ++ "_" ++ pad2S d.day ++
    folderNamePart relativeFolder ++ "_" ++ (splitextE filename).1

/-- The duplicate-handling `while` loop of `organize_files`, with the
candidate name and the counter as loop state.  The Python loop has no bound;
the `fuel` argument only serves to make the recursion structural, and the
`none` result marks fuel exhaustion (a run of the Python loop longer than
any fuel). -/
def resolveCollision (monthDir newBase ext : String) (ex : String → Bool) :
    String → Nat → Nat → Option String
  | _, _, 0 => none
  | name, counter, fuel + 1 =>
    if ex (pathJoin monthDir name) then
      resolveCollision monthDir newBase ext ex
        (newBase ++ "_" ++ Nat.repr counter ++ ext) (counter + 1) fuel
    else some name

/-- A planned move: the two directories `organize_files` would create, the
final file name, and the full destination path. -/
structure Plan where
  yearDir : String
  monthDir : String
  fileName : String
  destPath : String
deriving DecidableEq, Repr

/-- The per-file placement computation of `organize_files` (everything
between the `relative_folder_path` handling and the duplicate loop),
consulting an existence predicate `ex` over destination paths. -/
def planFile (destinationPath relativeFolder filename : String) (d : DateTime)
    (ex : String → Bool) (fuel : Nat) : Option Plan :=
  let fileExt := toLowerE (splitextE filename).2
  let monthDir := monthDirOf destinationPath d
  let newBase := newBaseOf relativeFolder filename d
  match resolveCollision monthDir newBase fileExt ex (newBase ++ fileExt) 1 fuel with
  | none => none
  | some name =>
    some { yearDir := yearDirOf destinationPath d, monthDir := monthDir,
           fileName := name, destPath := pathJoin monthDir name }

/-- One file as the directory walker hands it to the loop body: the walk
directory and bare file name (`original_filepath` is their join), the
relative folder `os.path.relpath(root, normalized_source_path)` computed by
the external walker, and the outcomes of the three external reads. -/
structure FileInput where
  walkRoot : String
  filename : String
  relFolder : String
  exifData : Option (List (String × String))
  ctimeD : Option DateTime
  mtimeD : Option DateTime
deriving Repr

/-- `os.path.join(root, filename)` for a walked file. -/
def FileInput.origPath (f : FileInput) : String := pathJoin f.walkRoot f.filename

/-- The observable state of one run: the filesystem (the list of existing
paths, consulted by `os.path.exists` and mutated by `os.makedirs` and
`shutil.move`), the three counters, and the reported move intents. -/
structure RunState where
  fsEntries : List String
  processed : Nat
  skipped : Nat
  errors : Nat
  planned : List Plan
deriving DecidableEq, Repr

/-- `os.makedirs(d, exist_ok=True)` on the entry list. -/
def makedirs (fs : List String) (d : String) : List String :=
  if fs.contains d then fs else d :: fs

/-- `shutil.move(src, dst)`: the source entry disappears, the destination
entry appears. -/
def moveEntry (fs : List String) (src dst : String) : List String :=
  dst :: fs.erase src

/-- The body of the inner `for filename in files` loop of `organize_files`:
filter by extension, resolve the date (a propagating failure is caught by
the per-file `except` and counted as an error), plan the destination, then
either record the intent (what-if) or create the directories and move the
file. -/
def processOneFile (whatIf : Bool) (destinationPath : String) (fuel : Nat)
    (st : RunState) (f : FileInput) : RunState :=
  if isAccepted f.filename = false then
    { st with skipped := st.skipped + 1 }
  else
    match get_file_date f.origPath f.exifData f.ctimeD f.mtimeD with
    | Except.error _ => { st with errors := st.errors + 1 }
    | Except.ok date =>
      match planFile destinationPath f.relFolder f.filename date
          (fun p => st.fsEntries.contains p) fuel with
      | none => st
      | some plan =>
        if whatIf then
          { st with planned := st.planned ++ [plan] }
        else
          { st with
            fsEntries := moveEntry
              (makedirs (makedirs st.fsEntries plan.yearDir) plan.monthDir)
              f.origPath plan.destPath,
            processed := st.processed + 1,
            planned := st.planned ++ [plan] }

/-- Embedding of `organize_files` after the confirmation prompt: the
unconditional `os.makedirs(destination_path, exist_ok=True)` followed by the
walk loop over the accepted files. -/
def organize_files (destinationPath : String) (whatIf : Bool)
    (files : List FileInput) (initialFs : List String) (fuel : Nat) : RunState :=
  files.foldl (processOneFile whatIf destinationPath fuel)
    { fsEntries := makedirs initialFs destinationPath,
      processed := 0, skipped := 0, errors := 0, planned := [] }

/-! ### Helper lemmas -/

/-- ASCII digit characters are digits and decode to their value. -/
theorem digit_aux : ∀ k, k < 10 → (digitChar k).isDigit = true ∧ dval (digitChar k) = k := by
  decide

/-- No month has more than 31 days. -/
theorem daysInMonth_le (y m : Nat) : daysInMonth y m ≤ 31 := by
  unfold daysInMonth
  split <;> [split <;> omega; split <;> omega]

/-- Parsing the canonical rendering of a valid date-time recovers it. -/
theorem strptime_formatExif (dt : DateTime) (h : ValidDate dt) :
    strptimeExif (formatExif dt) = some dt := by
  obtain ⟨y, mo, d, hh, mi, ss⟩ := dt
  unfold ValidDate at h
  dsimp only at h
  obtain ⟨h1, h2, h3, h4, h5, h6, h7, h8, h9⟩ := h
  have hm : ∀ n : Nat, n % 10 < 10 := fun n => Nat.mod_lt _ (by omega)
  have hd : ∀ n : Nat, (digitChar (n % 10)).isDigit = true := fun n => (digit_aux _ (hm n)).1
  have hv : ∀ n : Nat, dval (digitChar (n % 10)) = n % 10 := fun n => (digit_aux _ (hm n)).2
  simp only [strptimeExif, formatExif, pad4, pad2, List.cons_append, List.nil_append]
  simp only [hd, hv, and_true, true_and, and_self, if_true]
  have ey : y / 1000 % 10 * 1000 + y / 100 % 10 * 100 + y / 10 % 10 * 10 + y % 10 = y := by
    omega
  have e2 : ∀ n : Nat, n ≤ 99 → n / 10 % 10 * 10 + n % 10 = n := by omega
  have hd99 : d ≤ 99 := le_trans h6 (le_trans (daysInMonth_le y mo) (by omega))
  rw [ey, e2 mo (by omega), e2 d hd99, e2 hh (by omega), e2 mi (by omega),
    e2 ss (by omega)]
  rw [if_pos ⟨h1, h3, h4, h5, h6, h7, h8, h9⟩]

/-- The collision loop only ever stops at a candidate the existence
predicate rejects. -/
theorem resolveCollision_some_free (monthDir newBase ext : String)
    (ex : String → Bool) :
    ∀ (fuel : Nat) (name : String) (counter : Nat) (r : String),
      resolveCollision monthDir newBase ext ex name counter fuel = some r →
      ex (pathJoin monthDir r) = false := by
  intro fuel
  induction fuel with
  | zero => intro name counter r hr; simp [resolveCollision] at hr
  | succ n ih =>
    intro name counter r hr
    unfold resolveCollision at hr
    by_cases hex : ex (pathJoin monthDir name) = true
    · rw [if_pos hex] at hr
      exact ih _ _ _ hr
    · rw [if_neg hex] at hr
      cases hr
      exact Bool.not_eq_true _ ▸ hex

/-- Every candidate the collision loop can return keeps the suffix the
initial candidate had (in particular the file extension). -/
theorem resolveCollision_some_suffix (monthDir newBase ext : String)
    (ex : String → Bool) :
    ∀ (fuel : Nat) (name : String) (counter : Nat) (r : String),
      endsWithE name ext = true →
      resolveCollision monthDir newBase ext ex name counter fuel = some r →
      endsWithE r ext = true := by
  intro fuel
  induction fuel with
  | zero => intro name counter r _ hr; simp [resolveCollision] at hr
  | succ n ih =>
    intro name counter r hs hr
    unfold resolveCollision at hr
    by_cases hex : ex (pathJoin monthDir name) = true
    · rw [if_pos hex] at hr
      refine ih _ _ _ ?_ hr
      simp only [endsWithE, List.isSuffixOf_iff_suffix, String.data_append]
      exact List.suffix_append _ _
    · rw [if_neg hex] at hr
      cases hr
      exact hs

/-- What a successful `planFile` guarantees: the chosen destination path is
reported free by the predicate, and the plan's fields cohere. -/
theorem planFile_some (destinationPath relativeFolder filename : String)
    (d : DateTime) (ex : String → Bool) (fuel : Nat) (p : Plan)
    (h : planFile destinationPath relativeFolder filename d ex fuel = some p) :
    ex p.destPath = false ∧
    p.destPath = pathJoin (monthDirOf destinationPath d) p.fileName ∧
    p.monthDir = monthDirOf destinationPath d ∧
    p.yearDir = yearDirOf destinationPath d ∧
    endsWithE p.fileName (toLowerE (splitextE filename).2) = true := by
  unfold planFile at h
  dsimp only at h
  cases hr : resolveCollision (monthDirOf destinationPath d)
      (newBaseOf relativeFolder filename d)
      (toLowerE (splitextE filename).2) ex
      (newBaseOf relativeFolder filename d ++ toLowerE (splitextE filename).2)
      1 fuel with
  | none => rw [hr] at h; cases h
  | some name =>
    rw [hr] at h
    cases h
    refine ⟨resolveCollision_some_free _ _ _ _ _ _ _ _ hr, rfl, rfl, rfl, ?_⟩
    refine resolveCollision_some_suffix _ _ _ _ _ _ _ _ ?_ hr
    simp only [endsWithE, List.isSuffixOf_iff_suffix, String.data_append]
    exact List.suffix_append _ _

/-- When the EXIF tier yields nothing (non-image path, or the metadata read
or parse failed), `get_file_date` is exactly the two-timestamp fallback. -/
theorem get_file_date_fallback (p : String)
    (ed : Option (List (String × String))) (ct mt : Option DateTime)
    (h : isImagePath p = false ∨ get_exif_date ed = none) :
    get_file_date p ed ct mt =
      (match ct with
       | some t => Except.ok t
       | none =>
         match mt with
         | some t => Except.ok t
         | none => Except.error ()) := by
  unfold get_file_date
  rcases h with h | h
  · simp [h]
  · by_cases hi : isImagePath p = true <;> simp [hi, h]

/-- A file whose date resolution fails is counted as an error and nothing
else about the run state changes. -/
theorem processOneFile_dateError (whatIf : Bool) (destinationPath : String)
    (fuel : Nat) (st : RunState) (f : FileInput)
    (hacc : isAccepted f.filename = true)
    (herr : get_file_date f.origPath f.exifData f.ctimeD f.mtimeD = Except.error ()) :
    processOneFile whatIf destinationPath fuel st f =
      { st with errors := st.errors + 1 } := by
  unfold processOneFile
  rw [hacc, herr]
  rfl

/-- A what-if pass never touches the filesystem entries inside the loop. -/
theorem processOneFile_whatIf_fs (destinationPath : String) (fuel : Nat)
    (st : RunState) (f : FileInput) :
    (processOneFile true destinationPath fuel st f).fsEntries = st.fsEntries := by
  unfold processOneFile
  split
  · rfl
  · split
    · rfl
    · split
      · rfl
      · rfl

/-- A what-if pass over any file list never touches the filesystem entries. -/
theorem foldl_whatIf_fs (destinationPath : String) (fuel : Nat) :
    ∀ (files : List FileInput) (st : RunState),
      (files.foldl (processOneFile true destinationPath fuel) st).fsEntries =
        st.fsEntries := by
  intro files
  induction files with
  | nil => intro st; rfl
  | cons f rest ih =>
    intro st
    rw [List.foldl_cons, ih, processOneFile_whatIf_fs]

/-- `makedirs` makes its argument exist. -/
theorem makedirs_contains (fs : List String) (d : String) :
    (makedirs fs d).contains d = true := by
  unfold makedirs
  by_cases h : d ∈ fs <;> simp [h]

/-- `makedirs` is idempotent. -/
theorem makedirs_idem (fs : List String) (d : String) :
    makedirs (makedirs fs d) d = makedirs fs d := by
  unfold makedirs
  by_cases h : d ∈ fs <;> simp [h]

/-- `moveEntry` makes the destination exist. -/
theorem moveEntry_contains (fs : List String) (src dst : String) :
    (moveEntry fs src dst).contains dst = true := by
  simp [moveEntry]

/-- Lowering a concatenation lowers the pieces. -/
theorem toLowerE_append (a b : String) :
    toLowerE (a ++ b) = toLowerE a ++ toLowerE b := by
  apply String.ext
  simp [toLowerE]

/-- `splitext` splits the name: root and extension concatenate back to it. -/
theorem splitextE_append (fn : String) :
    (splitextE fn).1 ++ (splitextE fn).2 = fn := by
  unfold splitextE
  dsimp only
  split
  · apply String.ext
    simp
  · apply String.ext
    simp

/-- The lowered extension is a suffix of the lowered joined path. -/
theorem ext_suffix_path (root fn : String) :
    (toLowerE (splitextE fn).2).data <:+ (toLowerE (pathJoin root fn)).data := by
  have h1 : pathJoin root fn =
      (root ++ "/" ++ (splitextE fn).1) ++ (splitextE fn).2 := by
    apply String.ext
    have := congrArg String.data (splitextE_append fn)
    simp only [String.data_append] at this
    simp [pathJoin, ← this]
  rw [h1, toLowerE_append, String.data_append]
  exact List.suffix_append _ _

/-- If `v` is a suffix of `l` and `i` is suffix-incomparable with `v`, then
`i` is not a suffix of `l`. -/
theorem not_suffix_of_both {l v i : List Char} (hv : v <:+ l)
    (h1 : ¬ v <:+ i) (h2 : ¬ i <:+ v) : ¬ i <:+ l := fun hi =>
  (List.suffix_or_suffix_of_suffix hi hv).elim h2 h1

/-- A file whose (lowered) extension is a video extension never passes the
image-extension test `get_file_date` applies to its full path. -/
theorem video_not_image (root fn : String) (h : isVideoFile fn = true) :
    isImagePath (pathJoin root fn) = false := by
  have hsuf := ext_suffix_path root fn
  have hmem : toLowerE (splitextE fn).2 ∈ video_extensions := by
    simpa [isVideoFile, List.elem_iff] using h
  simp only [video_extensions, List.mem_cons, List.not_mem_nil, or_false] at hmem
  rcases hmem with hx | hx | hx | hx | hx | hx | hx <;>
    · rw [hx] at hsuf
      rw [isImagePath]
      refine List.any_eq_false.mpr ?_
      intro e he
      simp only [image_extensions, List.mem_cons, List.not_mem_nil, or_false] at he
      rcases he with rfl | rfl | rfl | rfl | rfl | rfl | rfl | rfl <;>
        · intro hcon
          rw [endsWithE, List.isSuffixOf_iff_suffix] at hcon
          exact not_suffix_of_both hsuf (by decide) (by decide) hcon

/-- The claim's description of segment cleaning, taken word for word:
replace each space, period and hyphen with an underscore in one pass, then
delete every character that is not alphanumeric or an underscore. -/
def cleanPartSpec (part : String) : String :=
  ⟨(part.data.map (fun c => if c = ' ' ∨ c = '.' ∨ c = '-' then '_' else c)).filter
    (fun c => c.isAlphanum || c = '_')⟩

/-- The claim's description of the folder-derived piece: split into
segments, clean each, drop the segments that became empty, join the
survivors with underscores, prepend one underscore. -/
def folderNamePartSpec (relativeFolder : String) : String :=
  let segs := if relativeFolder = "." then [] else splitOnSlash relativeFolder
  let cleaned := (segs.map cleanPartSpec).filter (fun p => p ≠ "")
  if cleaned = [] then "" else "_" ++ String.intercalate "_" cleaned

/-- The one-pass replacement of the claim agrees with the three successive
`str.replace` calls of the code. -/
theorem cleanPartSpec_eq (part : String) : cleanPartSpec part = cleanPart part := by
  apply String.ext
  simp only [cleanPartSpec, cleanPart, replaceChar, List.map_map]
  congr 1
  apply List.map_congr_left
  intro c _
  by_cases h1 : c = ' '
  · subst h1; decide
  · by_cases h2 : c = '.'
    · subst h2; decide
    · by_cases h3 : c = '-'
      · subst h3; decide
      · simp [Function.comp, h1, h2, h3]

/-- The claim's folder-piece computation agrees with the code's. -/
theorem folderNamePartSpec_eq (relativeFolder : String) :
    folderNamePartSpec relativeFolder = folderNamePart relativeFolder := by
  unfold folderNamePartSpec folderNamePart
  dsimp only
  rw [funext cleanPartSpec_eq]

/-! ### Claim theorems -/

/-- C1, counterexample: the plan for `Vacation/beach.JPG` carries the
lowercased extension `.jpg`, not the original-case `.JPG` the claim
asserts. -/
theorem extension_lowercased_counterexample :
    planFile "/out" "Vacation" "beach.JPG" ⟨2022, 7, 4, 10, 0, 0⟩ (fun _ => false) 1 =
      some ⟨"/out/2022", "/out/2022/2022_07", "2022_07_04_Vacation_beach.jpg",
        "/out/2022/2022_07/2022_07_04_Vacation_beach.jpg"⟩ ∧
    ("2022_07_04_Vacation_beach.jpg" : String) ≠ "2022_07_04_Vacation_beach.JPG" :=
  ⟨by decide, by decide⟩

/-- C1 (amended): the extension appended to the planned filename is the
lowercased extension of the original filename (every name `planFile` can
produce ends in it), membership in the allowlist is tested after lowering
(so `beach.JPG` is accepted although only `.jpg` is listed), and the example
file plans to `/out/2022/2022_07` with filename
`2022_07_04_Vacation_beach.jpg`. -/
theorem extension_lowercased_plan :
    (∀ destinationPath relativeFolder filename d ex fuel p,
      planFile destinationPath relativeFolder filename d ex fuel = some p →
      endsWithE p.fileName (toLowerE (splitextE filename).2) = true) ∧
    isAccepted "beach.JPG" = true ∧
    accepted_extensions.contains ".JPG" = false ∧
    planFile "/out" "Vacation" "beach.JPG" ⟨2022, 7, 4, 10, 0, 0⟩ (fun _ => false) 1 =
      some ⟨"/out/2022", "/out/2022/2022_07", "2022_07_04_Vacation_beach.jpg",
        "/out/2022/2022_07/2022_07_04_Vacation_beach.jpg"⟩ := by
  refine ⟨?_, by decide, by decide, by decide⟩
  intro dp rf fn d ex fuel p h
  exact (planFile_some dp rf fn d ex fuel p h).2.2.2.2

/-- C1 witness: the general part of `extension_lowercased_plan` at the
example input. -/
theorem extension_lowercased_plan_witness :
    endsWithE "2022_07_04_Vacation_beach.jpg" (toLowerE (splitextE "beach.JPG").2) = true :=
  extension_lowercased_plan.1 "/out" "Vacation" "beach.JPG" ⟨2022, 7, 4, 10, 0, 0⟩
    (fun _ => false) 1
    ⟨"/out/2022", "/out/2022/2022_07", "2022_07_04_Vacation_beach.jpg",
      "/out/2022/2022_07/2022_07_04_Vacation_beach.jpg"⟩ (by decide)

/-- C2, counterexample: the code collapses no underscores, so the example
folder yields `_Family_Trip___2024_Day_1`, not `_Family_Trip_2024_Day_1`. -/
theorem folder_sanitization_example_counterexample :
    folderNamePart "Family Trip - 2024/Day.1" = "_Family_Trip___2024_Day_1" ∧
    ("_Family_Trip___2024_Day_1" : String) ≠ "_Family_Trip_2024_Day_1" :=
  ⟨by decide, by decide⟩

/-- C2 (amended): the claim's described pipeline (split, one-pass
replacement of space/period/hyphen by underscore, deletion of other
non-alphanumeric non-underscore characters, dropping emptied segments,
underscore join behind one leading underscore) computes exactly the code's
folder piece, and on `"Family Trip - 2024/Day.1"` the result is
`_Family_Trip___2024_Day_1`. -/
theorem folder_sanitization_refines :
    (∀ relativeFolder, folderNamePartSpec relativeFolder = folderNamePart relativeFolder) ∧
    folderNamePart "Family Trip - 2024/Day.1" = "_Family_Trip___2024_Day_1" :=
  ⟨folderNamePartSpec_eq, by decide⟩

/-- C3: the collision loop returns only names whose destination path the
existence predicate rejects, and with a predicate holding exactly for the
tentative name and the `_1` variant it returns the `_2` variant. -/
theorem collision_resolution_behavior :
    (∀ monthDir newBase ext ex name counter fuel r,
      resolveCollision monthDir newBase ext ex name counter fuel = some r →
      ex (pathJoin monthDir r) = false) ∧
    (∀ monthDir newBase ext fuel,
      resolveCollision monthDir newBase ext
        (fun s => s == pathJoin monthDir (newBase ++ ext) ||
          s == pathJoin monthDir (newBase ++ "_" ++ Nat.repr 1 ++ ext))
        (newBase ++ ext) 1 (fuel + 3) =
      some (newBase ++ "_" ++ Nat.repr 2 ++ ext)) := by
  constructor
  · intro monthDir newBase ext ex name counter fuel r h
    exact resolveCollision_some_free monthDir newBase ext ex fuel name counter r h
  · intro monthDir newBase ext fuel
    have h1 : (Nat.repr 1 : String).data = ['1'] := rfl
    have h2 : (Nat.repr 2 : String).data = ['2'] := rfl
    have hne1 : pathJoin monthDir (newBase ++ "_" ++ Nat.repr 2 ++ ext) ≠
        pathJoin monthDir (newBase ++ ext) := by
      intro heq
      have := congrArg (fun s => s.data.length) heq
      simp [pathJoin, h2, List.length_append] at this
      omega
    have hne2 : pathJoin monthDir (newBase ++ "_" ++ Nat.repr 2 ++ ext) ≠
        pathJoin monthDir (newBase ++ "_" ++ Nat.repr 1 ++ ext) := by
      intro heq
      have hd := congrArg String.data heq
      simp only [pathJoin, String.data_append, h1, h2, List.append_assoc,
        List.append_cancel_left_eq, List.cons_append, List.nil_append,
        List.cons.injEq] at hd
      exact absurd hd.2.2.1 (by decide)
    unfold resolveCollision
    rw [if_pos (by simp)]
    unfold resolveCollision
    rw [if_pos (by simp)]
    unfold resolveCollision
    rw [if_neg (by simp [hne1, hne2])]

/-- C3 witness: the returned-name-is-free part of
`collision_resolution_behavior` at a concrete predicate. -/
theorem collision_resolution_behavior_witness :
    ((fun p => p == pathJoin "/d" ("a" ++ ".jpg")) (pathJoin "/d" "a_1.jpg")) = false :=
  collision_resolution_behavior.1 "/d" "a" ".jpg" (fun p => p == pathJoin "/d" ("a" ++ ".jpg"))
    ("a" ++ ".jpg") 1 2 "a_1.jpg" (by decide)

/-- C4: for an image path whose metadata holds the canonical rendering of a
valid date-time, `get_file_date` returns exactly that date-time whatever the
two filesystem timestamps are; and the function only ever errors when both
timestamp reads fail, so no metadata failure is ever propagated. -/
theorem exif_date_preferred_and_failures_swallowed :
    (∀ p tags dt ct mt, isImagePath p = true → ValidDate dt →
      findDateTimeOriginal tags = some (formatExif dt) →
      get_file_date p (some tags) ct mt = Except.ok dt) ∧
    (∀ p ed ct mt e, get_file_date p ed ct mt = Except.error e →
      ct = none ∧ mt = none) := by
  constructor
  · intro p tags dt ct mt hi hv hf
    unfold get_file_date
    rw [if_pos hi]
    simp only [get_exif_date, hf, strptime_formatExif dt hv]
  · intro p ed ct mt e h
    unfold get_file_date at h
    cases hx : (if isImagePath p then get_exif_date ed else none) with
    | some d => rw [hx] at h; cases h
    | none =>
      rw [hx] at h
      cases ct with
      | some t => cases h
      | none =>
        cases mt with
        | some t => cases h
        | none => exact ⟨rfl, rfl⟩

/-- C4 witness: `exif_date_preferred_and_failures_swallowed` at a concrete
image whose tag encodes 2022-07-04 10:00:00 while the modification
timestamp says 1999. -/
theorem exif_date_preferred_witness :
    get_file_date "/s/a.jpg" (some [("DateTimeOriginal", formatExif ⟨2022, 7, 4, 10, 0, 0⟩)])
      none (some ⟨1999, 1, 1, 0, 0, 0⟩) = Except.ok ⟨2022, 7, 4, 10, 0, 0⟩ :=
  exif_date_preferred_and_failures_swallowed.1 "/s/a.jpg"
    [("DateTimeOriginal", formatExif ⟨2022, 7, 4, 10, 0, 0⟩)] ⟨2022, 7, 4, 10, 0, 0⟩
    none (some ⟨1999, 1, 1, 0, 0, 0⟩) (by decide) (by decide) rfl

/-- C5, counterexample: an image file whose embedded tag parses has both
filesystem timestamp reads failing, yet the resolver returns the embedded
date instead of raising. -/
theorem timestamps_fail_exif_success_counterexample :
    get_file_date "/s/a.jpg" (some [("DateTimeOriginal", "2022:07:04 10:00:00")]) none none =
      Except.ok ⟨2022, 7, 4, 10, 0, 0⟩ ∧
    (Except.ok (⟨2022, 7, 4, 10, 0, 0⟩ : DateTime) : Except Unit DateTime) ≠
      Except.error () :=
  ⟨rfl, fun h => Except.noConfusion h⟩

/-- C5 (amended): when the metadata tier yields no date and both timestamp
reads fail, `get_file_date` raises (returns the error), and the caller's
loop records exactly one more error for that file — no plan, no move, no
substituted default date. -/
theorem date_unavailable_surfaced :
    (∀ p ed, (isImagePath p = false ∨ get_exif_date ed = none) →
      get_file_date p ed none none = Except.error ()) ∧
    (∀ whatIf destinationPath fuel st f,
      isAccepted f.filename = true →
      (isImagePath f.origPath = false ∨ get_exif_date f.exifData = none) →
      f.ctimeD = none → f.mtimeD = none →
      processOneFile whatIf destinationPath fuel st f =
        { st with errors := st.errors + 1 }) := by
  constructor
  · intro p ed h
    rw [get_file_date_fallback p ed none none h]
  · intro wi dp fuel st f hacc h hct hmt
    refine processOneFile_dateError wi dp fuel st f hacc ?_
    rw [hct, hmt]
    exact get_file_date_fallback f.origPath f.exifData none none h

/-- C5 witness: `date_unavailable_surfaced` at a concrete video file with
both timestamp reads failing. -/
theorem date_unavailable_surfaced_witness :
    get_file_date "/s/clip.mp4" none none none = Except.error () ∧
    processOneFile true "/out" 1 ⟨[], 0, 0, 0, []⟩ ⟨"/s", "clip.mp4", ".", none, none, none⟩ =
      ⟨[], 0, 0, 1, []⟩ :=
  ⟨date_unavailable_surfaced.1 "/s/clip.mp4" none (Or.inl (by decide)),
   date_unavailable_surfaced.2 true "/out" 1 ⟨[], 0, 0, 0, []⟩
     ⟨"/s", "clip.mp4", ".", none, none, none⟩ (by decide) (Or.inl (by decide)) rfl rfl⟩

/-- C6: inside the loop a what-if pass never changes the filesystem
entries, but `organize_files` runs `os.makedirs(destination_path)` before
checking the mode, so a dry run over an empty filesystem still creates the
destination root. -/
theorem dryrun_creates_destination_root :
    (∀ destinationPath fuel st f,
      (processOneFile true destinationPath fuel st f).fsEntries = st.fsEntries) ∧
    (organize_files "/out" true [] [] 1).fsEntries = ["/out"] ∧
    (organize_files "/out" true [] [] 1).fsEntries ≠ ([] : List String) :=
  ⟨fun dp fuel st f => processOneFile_whatIf_fs dp fuel st f, by decide, by decide⟩

/-- C7: two files planned against the same destination root and resolved
date, where the second planning sees the first plan's destination path as
existing (as it does after the first move executes), receive distinct
destination filenames; and a move does make its destination exist. -/
theorem sequential_plans_distinct :
    (∀ destinationPath rel1 rel2 fn1 fn2 d ex1 ex2 fuel1 fuel2 p1 p2,
      planFile destinationPath rel1 fn1 d ex1 fuel1 = some p1 →
      ex2 p1.destPath = true →
      planFile destinationPath rel2 fn2 d ex2 fuel2 = some p2 →
      p2.fileName ≠ p1.fileName) ∧
    (∀ fs src dst, (moveEntry fs src dst).contains dst = true) := by
  constructor
  · intro dp r1 r2 f1 f2 d ex1 ex2 u1 u2 p1 p2 h1 hex h2 hname
    obtain ⟨hfree2, hpath2, -, -, -⟩ := planFile_some dp r2 f2 d ex2 u2 p2 h2
    obtain ⟨-, hpath1, -, -, -⟩ := planFile_some dp r1 f1 d ex1 u1 p1 h1
    rw [hpath1, ← hname, ← hpath2, hfree2] at hex
    cases hex
  · intro fs src dst
    exact moveEntry_contains fs src dst

/-- C7 witness: two same-named files, same date, planned sequentially with
the first destination occupied, get `..._a.jpg` and `..._a_1.jpg`. -/
theorem sequential_plans_distinct_witness :
    ("2023_01_02_a_1.jpg" : String) ≠ "2023_01_02_a.jpg" :=
  sequential_plans_distinct.1 "/out" "." "." "a.jpg" "a.jpg" ⟨2023, 1, 2, 0, 0, 0⟩
    (fun _ => false) (fun s => s == "/out/2023/2023_01/2023_01_02_a.jpg") 1 2
    ⟨"/out/2023", "/out/2023/2023_01", "2023_01_02_a.jpg",
      "/out/2023/2023_01/2023_01_02_a.jpg"⟩
    ⟨"/out/2023", "/out/2023/2023_01", "2023_01_02_a_1.jpg",
      "/out/2023/2023_01/2023_01_02_a_1.jpg"⟩
    (by decide) (by decide) (by decide)

/-- C8: a file with a video extension never passes `get_file_date`'s image
check (so the metadata tier is skipped for it), and whenever the metadata
tier yields nothing — non-image path or failed metadata read — the resolver
returns the creation/status-change timestamp when that read succeeds, else
the modification timestamp. -/
theorem fallback_tiers :
    (∀ root fn, isVideoFile fn = true → isImagePath (pathJoin root fn) = false) ∧
    (∀ p ed mt t, (isImagePath p = false ∨ get_exif_date ed = none) →
      get_file_date p ed (some t) mt = Except.ok t) ∧
    (∀ p ed t, (isImagePath p = false ∨ get_exif_date ed = none) →
      get_file_date p ed none (some t) = Except.ok t) := by
  refine ⟨video_not_image, ?_, ?_⟩
  · intro p ed mt t h
    rw [get_file_date_fallback p ed (some t) mt h]
  · intro p ed t h
    rw [get_file_date_fallback p ed none (some t) h]

/-- C8 witness: `fallback_tiers` at a concrete video file. -/
theorem fallback_tiers_witness :
    isImagePath (pathJoin "/s" "clip.mp4") = false ∧
    get_file_date "/s/clip.mp4" none (some ⟨2020, 5, 1, 0, 0, 0⟩)
      (some ⟨2021, 6, 2, 0, 0, 0⟩) = Except.ok ⟨2020, 5, 1, 0, 0, 0⟩ ∧
    get_file_date "/s/clip.mp4" none none (some ⟨2021, 6, 2, 0, 0, 0⟩) =
      Except.ok ⟨2021, 6, 2, 0, 0, 0⟩ :=
  ⟨fallback_tiers.1 "/s" "clip.mp4" (by decide),
   fallback_tiers.2.1 "/s/clip.mp4" none (some ⟨2021, 6, 2, 0, 0, 0⟩)
     ⟨2020, 5, 1, 0, 0, 0⟩ (Or.inl (by decide)),
   fallback_tiers.2.2 "/s/clip.mp4" none ⟨2021, 6, 2, 0, 0, 0⟩ (Or.inl (by decide))⟩

/-- C9: a file whose date resolution raises only adds one to the error
count, and folding the loop over that file followed by any remaining files
equals folding over the remaining files from the error-counted state — the
run continues and every subsequent file is still processed. -/
theorem per_file_errors_isolated :
    ∀ whatIf destinationPath fuel st f rest,
      isAccepted f.filename = true →
      get_file_date f.origPath f.exifData f.ctimeD f.mtimeD = Except.error () →
      processOneFile whatIf destinationPath fuel st f =
        { st with errors := st.errors + 1 } ∧
      List.foldl (processOneFile whatIf destinationPath fuel) st (f :: rest) =
        List.foldl (processOneFile whatIf destinationPath fuel)
          { st with errors := st.errors + 1 } rest := by
  intro wi dp fuel st f rest hacc herr
  have h1 := processOneFile_dateError wi dp fuel st f hacc herr
  exact ⟨h1, by rw [List.foldl_cons, h1]⟩

/-- C9 witness: `per_file_errors_isolated` on a failing video file followed
by a healthy file; the second file is still planned. -/
theorem per_file_errors_isolated_witness :
    List.foldl (processOneFile false "/out" 1) ⟨[], 0, 0, 0, []⟩
      [⟨"/s", "clip.mp4", ".", none, none, none⟩] =
      List.foldl (processOneFile false "/out" 1) ⟨[], 0, 0, 1, []⟩ [] :=
  (per_file_errors_isolated false "/out" 1 ⟨[], 0, 0, 0, []⟩
    ⟨"/s", "clip.mp4", ".", none, none, none⟩ [] (by decide) rfl).2

/-- C10: planning consults nothing but its arguments — extensionally equal
existence predicates give identical plans — and a what-if run of
`organize_files` changes the filesystem state only by the pre-created
destination root, so a second what-if run over the resulting state produces
the identical plan list. -/
theorem planning_deterministic_and_dryrun_idempotent :
    (∀ destinationPath relativeFolder filename d ex1 ex2 fuel,
      (∀ s, ex1 s = ex2 s) →
      planFile destinationPath relativeFolder filename d ex1 fuel =
        planFile destinationPath relativeFolder filename d ex2 fuel) ∧
    (∀ destinationPath files initialFs fuel,
      (organize_files destinationPath true files
        (organize_files destinationPath true files initialFs fuel).fsEntries fuel).planned =
      (organize_files destinationPath true files initialFs fuel).planned) := by
  constructor
  · intro dp rf fn d ex1 ex2 fuel h
    rw [funext h]
  · intro dp files initFs fuel
    have hfs : (organize_files dp true files initFs fuel).fsEntries =
        makedirs initFs dp := by
      unfold organize_files
      exact foldl_whatIf_fs dp fuel files _
    rw [hfs]
    unfold organize_files
    rw [makedirs_idem]

/-- C10 witness: `planning_deterministic_and_dryrun_idempotent` with two
different literal predicates denoting the empty destination set. -/
theorem planning_deterministic_witness :
    planFile "/out" "." "a.jpg" ⟨2023, 1, 2, 0, 0, 0⟩ (fun _ => false) 1 =
      planFile "/out" "." "a.jpg" ⟨2023, 1, 2, 0, 0, 0⟩
        (fun s => decide (s ∈ ([] : List String))) 1 :=
  planning_deterministic_and_dryrun_idempotent.1 "/out" "." "a.jpg" ⟨2023, 1, 2, 0, 0, 0⟩
    (fun _ => false) (fun s => decide (s ∈ ([] : List String))) 1
    (fun s => by simp)

end MediaOrganizer
